import Mathlib

/-
  Verification development for the extraction/reconciliation core of the
  BacBo statistics scraper (src/scraper.py).

  The embedding models the pure data transformations of
  `_extract_stats_from_context` (scraper.py lines 325-653) and the pure
  OCR-text part of `_extract_stats_from_screenshot` (lines 655-851).
  Selenium driver effects are modelled as explicit inputs: the JavaScript
  text list, the per-element text list and the page source are fields of
  `CtxIn`; the screenshot/OCR side effects are modelled as `Except` inputs
  and an explicit window-size state.

  Python floats only ever hold values of the form float(intstring) or the
  single estimation product (100 - a) * 0.6; values are modelled as ℕ for
  candidates and ℚ for emitted records, with 0.6 as the exact 3/5 (for
  every evaluated input the double rounding agrees with the exact value).
  Python dicts are modelled as ordered key/value lists (`PyDict`).
-/

set_option maxRecDepth 4000

/-- A Python value as it occurs in the stats dictionaries built by the
scraper: a float, a bool, or a string. -/
inductive PyVal where
  | num (q : ℚ)
  | bool (b : Bool)
  | str (s : String)
deriving DecidableEq

/-- A Python dict literal, as an ordered association list. -/
abbrev PyDict := List (String × PyVal)

/-- Digit string to value, `float("123")`-style (whole number). -/
def digitsToNat (l : List Char) : ℕ :=
  l.foldl (fun a c => a * 10 + (c.toNat - 48)) 0

/-- Contiguous-sublist test: Python's `needle in hay` on strings. -/
def charsContain (hay needle : List Char) : Bool :=
  match hay with
  | [] => needle.isEmpty
  | _ :: t => needle.isPrefixOf hay || charsContain t needle

/-- Leftmost index of `needle` in `hay`: Python's `str.find` (as `Option`
instead of -1). -/
def charsFind : List Char → List Char → Option ℕ
  | [], needle => if needle.isEmpty then some 0 else none
  | c :: t, needle =>
    if needle.isPrefixOf (c :: t) then some 0
    else
      match charsFind t needle with
      | some i => some (i + 1)
      | none => none

/-- All maximal digit runs immediately followed by a percent sign:
`re.findall(r"(\d+)%", s)` (scraper.py line 334).  A `\d+` match can only
succeed when the maximal digit run from the match start is followed by
`%`, and findall restarts after the consumed `%`, so a linear scan that
accumulates the current run is equivalent. -/
def pctScanAux : List Char → List Char → List (List Char)
  | _, [] => []
  | run, c :: cs =>
    if c.isDigit then pctScanAux (run ++ [c]) cs
    else if c == '%' && !run.isEmpty then run :: pctScanAux [] cs
    else pctScanAux [] cs

/-- The percent numbers of a text, in order: `re.findall(r"(\d+)%", s)`
mapped through `float`. -/
def findPercents (cs : List Char) : List ℕ :=
  (pctScanAux [] cs).map digitsToNat

/-- The collectors' `0 <= val <= 100` filter (the lower bound is implicit
in ℕ). -/
def inRange (v : ℕ) : Bool :=
  decide (v ≤ 100)

/-- PRIMARY_A keyword variants, uppercase (scraper.py line 380). -/
def playerKws : List (List Char) := ["JOGADOR".data, "PLAYER".data]

/-- PRIMARY_B keyword variants, uppercase (scraper.py line 390). -/
def bankerKws : List (List Char) := ["BANCA".data, "BANKER".data]

/-- RESIDUAL keyword variants, uppercase (scraper.py line 400). -/
def tieKws : List (List Char) := ["EMPATE".data, "TIE".data]

/-- `any(keyword in text_upper for keyword in kws)`. -/
def hasKw (cs : List Char) (kws : List (List Char)) : Bool :=
  kws.any fun k => charsContain cs k

/-- PRIMARY_A matches of one text unit: if the uppercased text contains a
player keyword, every in-range percent number of the text (scraper.py
lines 380-387). -/
def textPl (t : String) : List ℕ :=
  if hasKw (t.data.map Char.toUpper) playerKws then (findPercents t.data).filter inRange
  else []

/-- PRIMARY_B matches of one text unit (scraper.py lines 390-397). -/
def textBk (t : String) : List ℕ :=
  if hasKw (t.data.map Char.toUpper) bankerKws then (findPercents t.data).filter inRange
  else []

/-- RESIDUAL matches of one text unit (scraper.py lines 400-407). -/
def textTi (t : String) : List ℕ :=
  if hasKw (t.data.map Char.toUpper) tieKws then (findPercents t.data).filter inRange
  else []

/-- One text unit's contribution to the three candidate lists; the three
keyword checks are independent `if`s, and every match is appended
unconditionally (scraper.py lines 376-407). -/
def classifyAppend (t : String) (acc : List ℕ × List ℕ × List ℕ) :
    List ℕ × List ℕ × List ℕ :=
  (acc.1 ++ textPl t, acc.2.1 ++ textBk t, acc.2.2 ++ textTi t)

/-- The JavaScript bulk-text collector: classify each extracted text
(scraper.py lines 359-411; the browser-side length/trim filter is part of
producing the input list). -/
def jsCollect (texts : List String) (acc : List ℕ × List ℕ × List ℕ) :
    List ℕ × List ℕ × List ℕ :=
  texts.foldl (fun a t => classifyAppend t a) acc

/-- Python whitespace for `strip()` / `\s` (ASCII). -/
def isPySpace (c : Char) : Bool :=
  c == ' ' || c == '\t' || c == '\n' || c == '\r' || c.toNat == 11 || c.toNat == 12

/-- Python `str.strip()`. -/
def stripChars (l : List Char) : List Char :=
  ((l.dropWhile isPySpace).reverse.dropWhile isPySpace).reverse

/-- The per-element collector: strip, skip empty or over-300-character
texts, then classify (scraper.py lines 414-452). -/
def elemCollect (texts : List String) (acc : List ℕ × List ℕ × List ℕ) :
    List ℕ × List ℕ × List ℕ :=
  texts.foldl
    (fun a t =>
      let cs := stripChars t.data
      if cs.isEmpty || cs.length > 300 then a
      else classifyAppend (String.mk cs) a)
    acc

/-- Maximal digit run followed by `%` starting exactly here: one `(\d+)%`
match attempt at a fixed position. -/
def runPctAt (cs : List Char) : Option (ℕ × List Char) :=
  let run := cs.takeWhile Char.isDigit
  if run.isEmpty then none
  else
    match cs.dropWhile Char.isDigit with
    | '%' :: rest => some (digitsToNat run, rest)
    | _ => none

/-- If one of the keywords is a prefix here, the remainder after it. -/
def kwHeadRest (cs : List Char) (kws : List (List Char)) : Option (List Char) :=
  kws.findSome? fun k => if k.isPrefixOf cs then some (cs.drop k.length) else none

/-- Lazy gap `[^X]*?` followed by `(\d+)%`: the first position reachable
without crossing `excl` where a percent number starts. -/
def lazyGapPct : Char → ℕ → List Char → Option (ℕ × List Char)
  | _, 0, _ => none
  | excl, fuel + 1, cs =>
    match runPctAt cs with
    | some r => some r
    | none =>
      match cs with
      | [] => none
      | c :: cs' => if c == excl then none else lazyGapPct excl fuel cs'

/-- Lazy gap `[^X]*?` followed by a keyword. -/
def lazyGapKw : Char → List (List Char) → ℕ → List Char → Option (List Char)
  | _, _, 0, _ => none
  | excl, kws, fuel + 1, cs =>
    match kwHeadRest cs kws with
    | some rest => some rest
    | none =>
      match cs with
      | [] => none
      | c :: cs' => if c == excl then none else lazyGapKw excl kws fuel cs'

/-- Greedy gap `[^>]{0,cap}` followed by `(\d+)%`: the largest gap not
crossing `>` after which a percent number starts (greedy backtracking
tries the longest gap first, so the last success while walking forward
wins; with the run suffix at that position as the capture). -/
def greedyGapPct : ℕ → List Char → Option (ℕ × List Char) → Option (ℕ × List Char)
  | 0, cs, best =>
    match runPctAt cs with
    | some r => some r
    | none => best
  | cap + 1, cs, best =>
    let best' :=
      match runPctAt cs with
      | some r => some r
      | none => best
    match cs with
    | [] => best'
    | c :: cs' => if c == '>' then best' else greedyGapPct cap cs' best'

/-- Greedy gap `[^>]{0,cap}` followed by a keyword. -/
def greedyGapKw (kws : List (List Char)) : ℕ → List Char → Option (List Char) → Option (List Char)
  | 0, cs, best =>
    match kwHeadRest cs kws with
    | some r => some r
    | none => best
  | cap + 1, cs, best =>
    let best' :=
      match kwHeadRest cs kws with
      | some r => some r
      | none => best
    match cs with
    | [] => best'
    | c :: cs' => if c == '>' then best' else greedyGapKw kws cap cs' best'

/-- `re.findall(r"(?:KW1|KW2)[^>]*?(\d+)%", src, I|S)` (scraper.py line
465): at each keyword occurrence, a lazy non-`>` gap up to a percent
number; non-overlapping continuation after the consumed `%`, advancing one
character on failure. -/
def p1Scan (kws : List (List Char)) : ℕ → List Char → List ℕ
  | 0, _ => []
  | _ + 1, [] => []
  | fuel + 1, c :: cs =>
    match kwHeadRest (c :: cs) kws with
    | some rest =>
      match lazyGapPct '>' (rest.length + 1) rest with
      | some (v, after) => v :: p1Scan kws fuel after
      | none => p1Scan kws fuel cs
    | none => p1Scan kws fuel cs

/-- `re.findall(r"(\d+)%[^<]*?(?:KW1|KW2)", src, I|S)` (scraper.py line
466). -/
def p2Scan (kws : List (List Char)) : ℕ → List Char → List ℕ
  | 0, _ => []
  | _ + 1, [] => []
  | fuel + 1, c :: cs =>
    match runPctAt (c :: cs) with
    | some (v, rest) =>
      match lazyGapKw '<' kws (rest.length + 1) rest with
      | some after => v :: p2Scan kws fuel after
      | none => p2Scan kws fuel cs
    | none => p2Scan kws fuel cs

/-- `re.findall(r"<[^>]*>(?:KW1|KW2)[^<]*?(\d+)%", src, I|S)` (scraper.py
line 467): `[^>]*>` deterministically consumes through the first `>`. -/
def p3Scan (kws : List (List Char)) : ℕ → List Char → List ℕ
  | 0, _ => []
  | _ + 1, [] => []
  | fuel + 1, c :: cs =>
    match
      (if c == '<' then
        match cs.dropWhile (fun ch => ch != '>') with
        | '>' :: r1 =>
          match kwHeadRest r1 kws with
          | some r2 => lazyGapPct '<' (r2.length + 1) r2
          | none => none
        | _ => none
      else none) with
    | some (v, after) => v :: p3Scan kws fuel after
    | none => p3Scan kws fuel cs

/-- `re.findall(r"(\d+)%[^<]*?<[^>]*>(?:KW1|KW2)", src, I|S)` (scraper.py
line 468): the lazy non-`<` gap can only stop at the first `<`. -/
def p4Scan (kws : List (List Char)) : ℕ → List Char → List ℕ
  | 0, _ => []
  | _ + 1, [] => []
  | fuel + 1, c :: cs =>
    match runPctAt (c :: cs) with
    | some (v, rest) =>
      match rest.dropWhile (fun ch => ch != '<') with
      | '<' :: r1 =>
        match r1.dropWhile (fun ch => ch != '>') with
        | '>' :: r2 =>
          match kwHeadRest r2 kws with
          | some after => v :: p4Scan kws fuel after
          | none => p4Scan kws fuel cs
        | _ => p4Scan kws fuel cs
      | _ => p4Scan kws fuel cs
    | none => p4Scan kws fuel cs

/-- `re.findall(r"(?:KW1|KW2)[^>]{0,200}(\d+)%", src, I|S)` (scraper.py
line 469): the greedy bounded gap means the largest workable gap wins. -/
def p5Scan (kws : List (List Char)) : ℕ → List Char → List ℕ
  | 0, _ => []
  | _ + 1, [] => []
  | fuel + 1, c :: cs =>
    match kwHeadRest (c :: cs) kws with
    | some rest =>
      match greedyGapPct 200 rest none with
      | some (v, after) => v :: p5Scan kws fuel after
      | none => p5Scan kws fuel cs
    | none => p5Scan kws fuel cs

/-- `re.findall(r"(\d+)%[^>]{0,200}(?:KW1|KW2)", src, I|S)` (scraper.py
line 470). -/
def p6Scan (kws : List (List Char)) : ℕ → List Char → List ℕ
  | 0, _ => []
  | _ + 1, [] => []
  | fuel + 1, c :: cs =>
    match runPctAt (c :: cs) with
    | some (v, rest) =>
      match greedyGapKw kws 200 rest none with
      | some after => v :: p6Scan kws fuel after
      | none => p6Scan kws fuel cs
    | none => p6Scan kws fuel cs

/-- One label's page-source pattern matches, patterns in source order,
each value appended after the `0 <= val <= 100` check (scraper.py lines
473-511; IGNORECASE is modelled by uppercasing the source, which leaves
digits, `%`, `<` and `>` unchanged). -/
def patternVals (kws : List (List Char)) (up : List Char) : List ℕ :=
  let f := up.length + 1
  (p1Scan kws f up ++ p2Scan kws f up ++ p3Scan kws f up ++ p4Scan kws f up ++
    p5Scan kws f up ++ p6Scan kws f up).filter inRange

/-- The markup-pattern collector: all player patterns, then banker, then
tie (scraper.py lines 462-511). -/
def patternCollect (source : String) (acc : List ℕ × List ℕ × List ℕ) :
    List ℕ × List ℕ × List ℕ :=
  let up := source.data.map Char.toUpper
  (acc.1 ++ patternVals playerKws up, acc.2.1 ++ patternVals bankerKws up,
    acc.2.2 ++ patternVals tieKws up)

/-- The every-percent context-window collector (scraper.py lines 513-542):
for each percent number of the page source, locate the FIRST occurrence of
its digit string followed by `%` (`page_source.find`), classify by keyword
presence in the `[idx-200, idx+200)` window (player / elif banker / elif
tie), and append the value ONLY if it is not already in that label's
candidate list. -/
def windowCollect (source : String) (acc : List ℕ × List ℕ × List ℕ) :
    List ℕ × List ℕ × List ℕ :=
  let cs := source.data
  (pctScanAux [] cs).foldl
    (fun acc run =>
      let v := digitsToNat run
      if v ≤ 100 then
        match charsFind cs (run ++ ['%']) with
        | some idx =>
          let lo := idx - 200
          let hi := min cs.length (idx + 200)
          let ctx := ((cs.drop lo).take (hi - lo)).map Char.toUpper
          if hasKw ctx playerKws then
            (if v ∈ acc.1 then acc else (acc.1 ++ [v], acc.2.1, acc.2.2))
          else if hasKw ctx bankerKws then
            (if v ∈ acc.2.1 then acc else (acc.1, acc.2.1 ++ [v], acc.2.2))
          else if hasKw ctx tieKws then
            (if v ∈ acc.2.2 then acc else (acc.1, acc.2.1, acc.2.2 ++ [v]))
          else acc
        | none => acc
      else acc)
    acc

/-- One step of `max(set(c), key=lambda x: (c.count(x), x))` (scraper.py
lines 547, 550, 553): keep the element with the lexicographically larger
(count, value) key.  Folding over the list itself instead of the
duplicate-free set does not change the unique maximum. -/
def selStep (c : List ℕ) (best : Option ℕ) (x : ℕ) : Option ℕ :=
  match best with
  | none => some x
  | some y =>
    if c.count y < c.count x ∨ (c.count x = c.count y ∧ y < x) then some x else some y

/-- Per-label consensus: most frequent candidate, ties resolved towards
the larger value; `none` on an empty candidate list (scraper.py lines
544-554). -/
def selectConsensus (c : List ℕ) : Option ℕ :=
  c.foldl (selStep c) none

/-- First `(\d+)%\s*KW` match of a text, if any (scraper.py structural
fallback patterns, lines 567-589). -/
def numThenKw : List Char → List (List Char) → Option ℕ
  | [], _ => none
  | c :: cs, kws =>
    match runPctAt (c :: cs) with
    | some (v, rest) =>
      if (kwHeadRest (rest.dropWhile isPySpace) kws).isSome then some v
      else numThenKw cs kws
    | none => numThenKw cs kws

/-- First `KW\s*(\d+)%` match of a text, if any. -/
def kwThenNum : List Char → List (List Char) → Option ℕ
  | [], _ => none
  | c :: cs, kws =>
    match kwHeadRest (c :: cs) kws with
    | some rest =>
      match runPctAt (rest.dropWhile isPySpace) with
      | some (v, _) => some v
      | none => kwThenNum cs kws
    | none => kwThenNum cs kws

/-- `if x is None: x = v` assignment. -/
def assignIfNone (cur v : Option ℕ) : Option ℕ :=
  match cur with
  | some w => some w
  | none => v

/-- One element's structural-pattern fallback step (scraper.py lines
560-591): strip, skip empty, then fill each still-unresolved label with
the first number-adjacent-to-keyword match, number-first then
keyword-first, player then banker then tie. -/
def sfStep (s : Option ℕ × Option ℕ × Option ℕ) (text : String) :
    Option ℕ × Option ℕ × Option ℕ :=
  let cs := stripChars text.data
  if cs.isEmpty then s
  else
    let up := cs.map Char.toUpper
    let pOpt := assignIfNone (assignIfNone s.1 (numThenKw up playerKws)) (kwThenNum up playerKws)
    let bOpt := assignIfNone (assignIfNone s.2.1 (numThenKw up bankerKws)) (kwThenNum up bankerKws)
    let tOpt := assignIfNone (assignIfNone s.2.2 (numThenKw up tieKws)) (kwThenNum up tieKws)
    (pOpt, bOpt, tOpt)

/-- The structural-pattern fallback over all element texts (no early
exit in the source loop). -/
def structFallback (texts : List String) (s : Option ℕ × Option ℕ × Option ℕ) :
    Option ℕ × Option ℕ × Option ℕ :=
  texts.foldl sfStep s

/-- The stats dict built by `_extract_stats_from_context` (scraper.py
lines 598-604, 615-621, 638-644): exactly these five keys, with
`player_winning = player_percent > 50`. -/
def mkStats (p b t now : ℚ) : PyDict :=
  [("player_percent", PyVal.num p), ("banker_percent", PyVal.num b),
    ("tie_percent", PyVal.num t), ("player_winning", PyVal.bool (decide (p > 50))),
    ("timestamp", PyVal.num now)]

/-- Python's `if x < 0: x = 0` clamp. -/
def clamp0 (x : ℚ) : ℚ :=
  if x < 0 then 0 else x

/-- The validation/emission tail of `_extract_stats_from_context`
(scraper.py lines 593-649):
  * all three resolved and sum in [85,110]  → emit as observed;
  * otherwise, player and banker resolved   → discard any observed tie and
    emit with tie = clamp0 (100 - player - banker);
  * otherwise, player resolved              → estimate
    banker = (100 - player) * 0.6, keep an observed tie, else
    tie = clamp0 (100 - player - banker), and emit;
  * otherwise                               → None. -/
def finalize (pOpt bOpt tOpt : Option ℚ) (now : ℚ) : Option PyDict :=
  match pOpt, bOpt, tOpt with
  | some p, some b, some t =>
    if 85 ≤ p + b + t ∧ p + b + t ≤ 110 then some (mkStats p b t now)
    else some (mkStats p b (clamp0 (100 - p - b)) now)
  | some p, some b, none => some (mkStats p b (clamp0 (100 - p - b)) now)
  | some p, none, tOpt =>
    let b := (100 - p) * (3 / 5)
    let t :=
      match tOpt with
      | some t => t
      | none => clamp0 (100 - p - b)
    some (mkStats p b t now)
  | none, _, _ => none

/-- The observable inputs of one driver context (main page or iframe):
the JavaScript-extracted text list, the per-element texts, and
`page_source` (empty string when reading it failed, which in Python is
falsy and skips the whole page-source block). -/
structure CtxIn where
  jsTexts : List String
  elemTexts : List String
  pageSource : String

/-- The candidate-collection and reconciliation phases of
`_extract_stats_from_context` (scraper.py lines 336-591): JavaScript bulk
text, per-element texts, then (only for a non-empty page source) markup
patterns and context windows; per-label consensus vote; structural
pattern fallback when any label is unresolved. -/
def ctxResolve (inp : CtxIn) (p0 b0 t0 : List ℕ) :
    Option ℕ × Option ℕ × Option ℕ :=
  let acc := jsCollect inp.jsTexts (p0, b0, t0)
  let acc := elemCollect inp.elemTexts acc
  let acc :=
    if inp.pageSource = "" then acc
    else windowCollect inp.pageSource (patternCollect inp.pageSource acc)
  let pOpt := selectConsensus acc.1
  let bOpt := selectConsensus acc.2.1
  let tOpt := selectConsensus acc.2.2
  if pOpt.isNone || bOpt.isNone || tOpt.isNone then
    structFallback inp.elemTexts (pOpt, bOpt, tOpt)
  else (pOpt, bOpt, tOpt)

/-- `_extract_stats_from_context(driver_context, player_candidates,
banker_candidates, tie_candidates)` (scraper.py lines 325-653) as a pure
function of the context's observable inputs, the seeded candidate lists
and the cycle timestamp. -/
def extractStatsFromContext (inp : CtxIn) (p0 b0 t0 : List ℕ) (now : ℚ) :
    Option PyDict :=
  let res := ctxResolve inp p0 b0 t0
  finalize (res.1.map fun n => (n : ℚ)) (res.2.1.map fun n => (n : ℚ))
    (res.2.2.map fun n => (n : ℚ)) now

/-- Python `ocr_text.split('\n')` (segments, empties preserved). -/
def splitNl : List Char → List (List Char)
  | [] => [[]]
  | c :: cs =>
    if c == '\n' then [] :: splitNl cs
    else
      match splitNl cs with
      | seg :: rest => (c :: seg) :: rest
      | [] => [[c]]

/-- `if cur is None or val > cur` take-the-largest update, after the
`0 <= val <= 100` check (scraper.py lines 722-727). -/
def takeLarger (cur : Option ℕ) (v : ℕ) : Option ℕ :=
  if v ≤ 100 then
    match cur with
    | none => some v
    | some w => if w < v then some v else some w
  else cur

/-- One OCR line's classification (scraper.py lines 714-745): for each
label whose keyword occurs in the uppercased line, fold every percent
number of the line through the take-the-largest update; the three label
checks are independent `if`s. -/
def lineUpd (line : List Char) (s : Option ℕ × Option ℕ × Option ℕ) :
    Option ℕ × Option ℕ × Option ℕ :=
  let up := line.map Char.toUpper
  let ps := findPercents line
  (if hasKw up playerKws then ps.foldl takeLarger s.1 else s.1,
    if hasKw up bankerKws then ps.foldl takeLarger s.2.1 else s.2.1,
    if hasKw up tieKws then ps.foldl takeLarger s.2.2 else s.2.2)

/-- The OCR context-window pass (scraper.py lines 748-772): for each
percent number of the transcript, find the FIRST occurrence of its digit
string followed by `%`, classify by keyword presence in the ±200-character
window (player / elif banker / elif tie) and update take-the-largest. -/
def ctxUpd (cs : List Char) (s : Option ℕ × Option ℕ × Option ℕ)
    (run : List Char) : Option ℕ × Option ℕ × Option ℕ :=
  let v := digitsToNat run
  if v ≤ 100 then
    match charsFind cs (run ++ ['%']) with
    | some idx =>
      let lo := idx - 200
      let hi := min cs.length (idx + 200)
      let ctx := ((cs.drop lo).take (hi - lo)).map Char.toUpper
      if hasKw ctx playerKws then (takeLarger s.1 v, s.2.1, s.2.2)
      else if hasKw ctx bankerKws then (s.1, takeLarger s.2.1 v, s.2.2)
      else if hasKw ctx tieKws then (s.1, s.2.1, takeLarger s.2.2 v)
      else s
    | none => s
  else s

/-- Is any of the three labels still unresolved. -/
def anyNone (s : Option ℕ × Option ℕ × Option ℕ) : Bool :=
  s.1.isNone || s.2.1.isNone || s.2.2.isNone

/-- OCR heuristic 1 (scraper.py lines 775-802): the first line holding at
least three percent numbers whose first three sum into [90,110] and that
either names all three labels, or (some label being unresolved) has all
three numbers in range, assigns the three numbers as PRIMARY_A, RESIDUAL,
PRIMARY_B in on-screen order — overwriting all three — and stops. -/
def h1Pass : List (List Char) → (Option ℕ × Option ℕ × Option ℕ) →
    Option ℕ × Option ℕ × Option ℕ
  | [], s => s
  | line :: rest, s =>
    match findPercents line with
    | a :: m :: z :: _ =>
      if 90 ≤ a + m + z ∧ a + m + z ≤ 110 then
        let lu := line.map Char.toUpper
        if hasKw lu playerKws && hasKw lu tieKws && hasKw lu bankerKws then
          (some a, some z, some m)
        else if anyNone s = true ∧ a ≤ 100 ∧ m ≤ 100 ∧ z ≤ 100 then
          (some a, some z, some m)
        else h1Pass rest s
      else h1Pass rest s
    | _ => h1Pass rest s

/-- The consecutive windows of three of a number list. -/
def windows3 : List ℕ → List (ℕ × ℕ × ℕ)
  | a :: b :: c :: rest => (a, b, c) :: windows3 (b :: c :: rest)
  | _ => []

/-- Sum of a window. -/
def triSum (w : ℕ × ℕ × ℕ) : ℕ :=
  w.1 + w.2.1 + w.2.2

/-- Minimum of a window. -/
def triMin (w : ℕ × ℕ × ℕ) : ℕ :=
  min w.1 (min w.2.1 w.2.2)

/-- `abs(triplet[1] - min(triplet))` (scraper.py line 814); the middle
value is never below the window minimum, so the ℕ subtraction is exact. -/
def triScore (w : ℕ × ℕ × ℕ) : ℕ :=
  w.2.1 - triMin w

/-- One step of the sliding-window selection loop (scraper.py lines
809-816): windows whose sum is outside [90,110] are skipped; among the
rest, a window replaces the current best only when its `|middle - min|`
score is strictly smaller (`score > best[0]` on negated scores), so the
earliest window wins ties. -/
def bStep (best : Option (ℕ × ℕ × ℕ)) (w : ℕ × ℕ × ℕ) : Option (ℕ × ℕ × ℕ) :=
  if 90 ≤ triSum w ∧ triSum w ≤ 110 then
    match best with
    | none => some w
    | some b => if triScore w < triScore b then some w else some b
  else best

/-- OCR heuristic 2's window selection (scraper.py lines 805-816), over
the in-range percent numbers of the whole transcript. -/
def bestTriplet (nums : List ℕ) : Option (ℕ × ℕ × ℕ) :=
  (windows3 nums).foldl bStep none

/-- Modelled from the spec: the window selection as the specification
sentence describes it — among ALL sliding windows of three consecutive
percent numbers, the window whose sum is closest to 100, ties broken by
the window whose middle value is closest to the window minimum. -/
def bestTripletClaim (nums : List ℕ) : Option (ℕ × ℕ × ℕ) :=
  (windows3 nums).foldl
    (fun best w =>
      match best with
      | none => some w
      | some b =>
        if max (triSum w) 100 - min (triSum w) 100 < max (triSum b) 100 - min (triSum b) 100 ∨
            (max (triSum w) 100 - min (triSum w) 100 = max (triSum b) 100 - min (triSum b) 100 ∧
              triScore w < triScore b) then some w
        else some b)
    none

/-- OCR heuristic 2 (scraper.py lines 805-822): run the window selection
on the in-range percent numbers and fill only still-unresolved labels, in
the fixed order PRIMARY_A, RESIDUAL, PRIMARY_B. -/
def h2Pass (allVals : List ℕ) (s : Option ℕ × Option ℕ × Option ℕ) :
    Option ℕ × Option ℕ × Option ℕ :=
  let nums := allVals.filter inRange
  match bestTriplet nums with
  | some (x, y, z) =>
    (assignIfNone s.1 (some x), assignIfNone s.2.1 (some z), assignIfNone s.2.2 (some y))
  | none => s

/-- The OCR transcript's label resolution (scraper.py lines 700-822):
line-based classification, context-window pass, then heuristics 1 and 2,
each heuristic gated on some label being unresolved (heuristic 2 also on
at least three percent numbers in the transcript). -/
def ocrResolve (txt : String) : Option ℕ × Option ℕ × Option ℕ :=
  let cs := txt.data
  let runs := pctScanAux [] cs
  let lines := splitNl cs
  let s1 := lines.foldl (fun s l => lineUpd l s) (none, none, none)
  let s2 := runs.foldl (ctxUpd cs) s1
  let s3 := if anyNone s2 = true then h1Pass lines s2 else s2
  let s4 :=
    if anyNone s3 = true ∧ 3 ≤ runs.length then h2Pass (runs.map digitsToNat) s3
    else s3
  s4

/-- The stats dict built by `_extract_stats_from_screenshot` (scraper.py
lines 827-834): the five context keys plus `extraction_method: "ocr"`. -/
def mkOcrStats (p b t now : ℚ) : PyDict :=
  [("player_percent", PyVal.num p), ("banker_percent", PyVal.num b),
    ("tie_percent", PyVal.num t), ("player_winning", PyVal.bool (decide (p > 50))),
    ("timestamp", PyVal.num now), ("extraction_method", PyVal.str "ocr")]

/-- The OCR emission gate (scraper.py lines 824-838): a record is emitted
only when all three labels resolved (the `valid_count >= 2` test is
subsumed by the three `is not None` tests conjoined with it). -/
def emitOcr (s : Option ℕ × Option ℕ × Option ℕ) (now : ℚ) : Option PyDict :=
  match s with
  | (some p, some b, some t) => some (mkOcrStats (p : ℚ) (b : ℚ) (t : ℚ) now)
  | _ => none

/-- The pure OCR-text part of `_extract_stats_from_screenshot` (scraper.py
lines 700-838): resolve labels from the transcript, then emit iff all
three resolved. -/
def parseOcrText (txt : String) (now : ℚ) : Option PyDict :=
  emitOcr (ocrResolve txt) now

/-- `_extract_stats_from_screenshot` (scraper.py lines 655-851) as a state
transformer on the window size.  `ocrAvailable = false` (and likewise a
missing driver) returns before any resize.  Otherwise the original size is
read, the window resized to the full-page size, and the capture / OCR /
parse region runs inside `try ... finally restore` (lines 680-845):
whether capture raises, OCR raises, OCR returns `None`, or parsing
succeeds or fails, the `finally` block restores the original size (itself
guarded by `try/except pass`, modelled by `restoreOk`). -/
def extractStatsFromScreenshot (ocrAvailable : Bool) (origSize fullSize : ℕ × ℕ)
    (captureRes : Except Unit Unit) (ocrRes : Except Unit (Option String))
    (restoreOk : Bool) (now : ℚ) : Option PyDict × (ℕ × ℕ) :=
  if ocrAvailable = false then (none, origSize)
  else
    let restored := if restoreOk then origSize else fullSize
    match captureRes with
    | .error _ => (none, restored)
    | .ok _ =>
      match ocrRes with
      | .error _ => (none, restored)
      | .ok none => (none, restored)
      | .ok (some txt) => (parseOcrText txt now, restored)

/-- The dict keys of every context-path record. -/
def ctxKeys : List String :=
  ["player_percent", "banker_percent", "tie_percent", "player_winning", "timestamp"]

/-- The dict keys of every OCR-path record. -/
def ocrKeys : List String :=
  ctxKeys ++ ["extraction_method"]

/-- Concatenated per-text matches, duplicates preserved. -/
def concatMapStr (f : String → List ℕ) : List String → List ℕ
  | [] => []
  | t :: ts => f t ++ concatMapStr f ts

/-- The (count, value) order the consensus vote maximises. -/
def keyLe (c : List ℕ) (w v : ℕ) : Prop :=
  c.count w < c.count v ∨ (c.count w = c.count v ∧ w ≤ v)

lemma keyLe_refl (c : List ℕ) (v : ℕ) : keyLe c v v :=
  Or.inr ⟨rfl, le_refl v⟩

lemma keyLe_trans (c : List ℕ) {a b d : ℕ} (h1 : keyLe c a b) (h2 : keyLe c b d) :
    keyLe c a d := by
  unfold keyLe at h1 h2 ⊢
  omega

lemma selAux (c l : List ℕ) :
    ∀ (acc : Option ℕ) (v : ℕ), l.foldl (selStep c) acc = some v →
      (v ∈ l ∨ acc = some v) ∧ (∀ w ∈ l, keyLe c w v) ∧
        (∀ u, acc = some u → keyLe c u v) := by
  induction l with
  | nil =>
    intro acc v h
    simp only [List.foldl_nil] at h
    refine ⟨Or.inr h, by simp, ?_⟩
    intro u hu
    rw [h] at hu
    cases hu
    exact keyLe_refl c v
  | cons x l ih =>
    intro acc v h
    rw [List.foldl_cons] at h
    obtain ⟨hA, hB, hC⟩ := ih (selStep c acc x) v h
    have hx : keyLe c x v := by
      cases acc with
      | none => exact hC x rfl
      | some y =>
        by_cases hxy : c.count y < c.count x ∨ (c.count x = c.count y ∧ y < x)
        · exact hC x (by simp [selStep, hxy])
        · have hyv : keyLe c y v := hC y (by simp [selStep, hxy])
          have hxy2 : keyLe c x y := by unfold keyLe; omega
          exact keyLe_trans c hxy2 hyv
    refine ⟨?_, ?_, ?_⟩
    · rcases hA with hv | hstep
      · exact Or.inl (List.mem_cons_of_mem x hv)
      · cases acc with
        | none =>
          have hxv : x = v := by simpa [selStep] using hstep
          exact Or.inl (hxv ▸ List.mem_cons_self x l)
        | some y =>
          by_cases hxy : c.count y < c.count x ∨ (c.count x = c.count y ∧ y < x)
          · have hxv : x = v := by simpa [selStep, hxy] using hstep
            exact Or.inl (hxv ▸ List.mem_cons_self x l)
          · have hyv : y = v := by simpa [selStep, hxy] using hstep
            exact Or.inr (by rw [hyv])
    · intro w hw
      rcases List.mem_cons.mp hw with hw1 | hw2
      · exact hw1 ▸ hx
      · exact hB w hw2
    · intro u hu
      cases acc with
      | none => cases hu
      | some y =>
        have hyu : y = u := by injection hu
        by_cases hxy : c.count y < c.count x ∨ (c.count x = c.count y ∧ y < x)
        · have hyx : keyLe c y x := by unfold keyLe; omega
          exact hyu ▸ keyLe_trans c hyx hx
        · exact hyu ▸ hC y (by simp [selStep, hxy])

lemma selSome (c l : List ℕ) :
    ∀ acc : Option ℕ, acc.isSome → (l.foldl (selStep c) acc).isSome := by
  induction l with
  | nil => intro acc h; simpa using h
  | cons x l ih =>
    intro acc h
    rw [List.foldl_cons]
    apply ih
    cases acc with
    | none => simp at h
    | some y =>
      simp only [selStep]
      split <;> simp

lemma bAux (l : List (ℕ × ℕ × ℕ)) :
    ∀ (acc : Option (ℕ × ℕ × ℕ)) (v : ℕ × ℕ × ℕ), l.foldl bStep acc = some v →
      ((v ∈ l ∧ 90 ≤ triSum v ∧ triSum v ≤ 110) ∨ acc = some v) ∧
        (∀ w ∈ l, 90 ≤ triSum w → triSum w ≤ 110 → triScore v ≤ triScore w) ∧
        (∀ u, acc = some u → triScore v ≤ triScore u) := by
  induction l with
  | nil =>
    intro acc v h
    simp only [List.foldl_nil] at h
    refine ⟨Or.inr h, by simp, ?_⟩
    intro u hu
    rw [h] at hu
    cases hu
    exact le_refl _
  | cons x l ih =>
    intro acc v h
    rw [List.foldl_cons] at h
    obtain ⟨hA, hB, hC⟩ := ih (bStep acc x) v h
    by_cases hband : 90 ≤ triSum x ∧ triSum x ≤ 110
    · have hxv : triScore v ≤ triScore x := by
        cases acc with
        | none => exact hC x (by simp [bStep, hband])
        | some b =>
          by_cases hsc : triScore x < triScore b
          · exact hC x (by simp [bStep, hband, hsc])
          · have hvb := hC b (by simp [bStep, hband, hsc])
            omega
      refine ⟨?_, ?_, ?_⟩
      · rcases hA with ⟨hv, hb1, hb2⟩ | hstep
        · exact Or.inl ⟨List.mem_cons_of_mem x hv, hb1, hb2⟩
        · cases acc with
          | none =>
            have hxeq : x = v := by simpa [bStep, hband] using hstep
            exact Or.inl ⟨hxeq ▸ List.mem_cons_self x l, hxeq ▸ hband.1, hxeq ▸ hband.2⟩
          | some b =>
            by_cases hsc : triScore x < triScore b
            · have hxeq : x = v := by simpa [bStep, hband, hsc] using hstep
              exact Or.inl ⟨hxeq ▸ List.mem_cons_self x l, hxeq ▸ hband.1, hxeq ▸ hband.2⟩
            · have hbeq : b = v := by simpa [bStep, hband, hsc] using hstep
              exact Or.inr (by rw [hbeq])
      · intro w hw h1 h2
        rcases List.mem_cons.mp hw with hw1 | hw2
        · exact hw1 ▸ hxv
        · exact hB w hw2 h1 h2
      · intro u hu
        cases acc with
        | none => cases hu
        | some b =>
          have hbu : b = u := by injection hu
          by_cases hsc : triScore x < triScore b
          · have h1 := hC x (by simp [bStep, hband, hsc])
            have h2 : triScore v ≤ triScore b := by omega
            exact hbu ▸ h2
          · exact hbu ▸ hC b (by simp [bStep, hband, hsc])
    · have hstep : bStep acc x = acc := by simp [bStep, hband]
      rw [hstep] at hA hC
      refine ⟨?_, ?_, ?_⟩
      · rcases hA with ⟨hv, hb⟩ | h2
        · exact Or.inl ⟨List.mem_cons_of_mem x hv, hb⟩
        · exact Or.inr h2
      · intro w hw h1 h2
        rcases List.mem_cons.mp hw with hw1 | hw2
        · exact absurd ⟨hw1 ▸ h1, hw1 ▸ h2⟩ hband
        · exact hB w hw2 h1 h2
      · exact hC

lemma jsCollect_eq (texts : List String) :
    ∀ pc bc tc : List ℕ,
      jsCollect texts (pc, bc, tc) =
        (pc ++ concatMapStr textPl texts, bc ++ concatMapStr textBk texts,
          tc ++ concatMapStr textTi texts) := by
  induction texts with
  | nil => intro pc bc tc; simp [jsCollect, concatMapStr]
  | cons t ts ih =>
    intro pc bc tc
    have h1 : jsCollect (t :: ts) (pc, bc, tc) =
        jsCollect ts (pc ++ textPl t, bc ++ textBk t, tc ++ textTi t) := rfl
    rw [h1, ih]
    simp [concatMapStr, List.append_assoc]

lemma mkStats_keys (p b t now : ℚ) : (mkStats p b t now).map Prod.fst = ctxKeys := rfl

lemma mkStats_lookup_pp (p b t now : ℚ) :
    List.lookup "player_percent" (mkStats p b t now) = some (PyVal.num p) := rfl

lemma mkStats_lookup_pw (p b t now : ℚ) :
    List.lookup "player_winning" (mkStats p b t now) =
      some (PyVal.bool (decide (p > 50))) := rfl

lemma mkOcrStats_keys (p b t now : ℚ) : (mkOcrStats p b t now).map Prod.fst = ocrKeys := rfl

lemma mkOcrStats_lookup_pp (p b t now : ℚ) :
    List.lookup "player_percent" (mkOcrStats p b t now) = some (PyVal.num p) := rfl

lemma mkOcrStats_lookup_pw (p b t now : ℚ) :
    List.lookup "player_winning" (mkOcrStats p b t now) =
      some (PyVal.bool (decide (p > 50))) := rfl

lemma finalize_shape (pOpt bOpt tOpt : Option ℚ) (now : ℚ) (d : PyDict)
    (h : finalize pOpt bOpt tOpt now = some d) :
    ∃ p b t : ℚ, d = mkStats p b t now := by
  rcases pOpt with _ | p
  · simp [finalize] at h
  · rcases bOpt with _ | b
    · rcases tOpt with _ | t
      · simp only [finalize] at h
        exact ⟨_, _, _, (Option.some.inj h).symm⟩
      · simp only [finalize] at h
        exact ⟨_, _, _, (Option.some.inj h).symm⟩
    · rcases tOpt with _ | t
      · simp only [finalize] at h
        exact ⟨_, _, _, (Option.some.inj h).symm⟩
      · simp only [finalize] at h
        split at h
        · exact ⟨_, _, _, (Option.some.inj h).symm⟩
        · exact ⟨_, _, _, (Option.some.inj h).symm⟩

lemma emitOcr_shape (s : Option ℕ × Option ℕ × Option ℕ) (now : ℚ) (d : PyDict)
    (h : emitOcr s now = some d) :
    ∃ p b t : ℚ, d = mkOcrStats p b t now := by
  obtain ⟨pOpt, bOpt, tOpt⟩ := s
  rcases pOpt with _ | p
  · simp [emitOcr] at h
  · rcases bOpt with _ | b
    · simp [emitOcr] at h
    · rcases tOpt with _ | t
      · simp [emitOcr] at h
      · simp only [emitOcr] at h
        exact ⟨_, _, _, (Option.some.inj h).symm⟩


/-- C1: with only PRIMARY_A resolvable (a single "PLAYER 55%" text and no
other candidates from any collector), `_extract_stats_from_context` does
NOT return None: its final fallback (scraper.py lines 627-646) fabricates
a full record, estimating banker = (100 - 55) * 0.6 = 27 and
tie = 100 - 55 - 27 = 18, contradicting the claim and the code's own
comments at lines 608 and 625. -/
theorem single_value_fabricated_record :
    extractStatsFromContext ⟨["PLAYER 55%"], [], ""⟩ [] [] [] 0 =
      some (mkStats 55 27 18 0) := by
  have h : ctxResolve ⟨["PLAYER 55%"], [], ""⟩ [] [] [] = (some 55, none, none) := by
    decide
  unfold extractStatsFromContext
  rw [h]
  simp only [Option.map_some', Option.map_none', finalize, mkStats, clamp0]
  norm_num

/-- C2 counterexample: a fully observed triple with sum 84 (40, 40, 4) is
NOT rejected to "no result": the cycle discards the observed tie and
emits a record with the derived tie 100 - 40 - 40 = 20 (scraper.py lines
607-623), so `extract()` does not return None. -/
theorem plausibility_sum84_not_none :
    extractStatsFromContext ⟨[], [], ""⟩ [40] [40] [4] 0 =
      some (mkStats 40 40 20 0) ∧
      extractStatsFromContext ⟨[], [], ""⟩ [40] [40] [4] 0 ≠ none := by
  have h : ctxResolve ⟨[], [], ""⟩ [40] [40] [4] = (some 40, some 40, some 4) := by
    decide
  have h2 : extractStatsFromContext ⟨[], [], ""⟩ [40] [40] [4] 0 =
      some (mkStats 40 40 20 0) := by
    unfold extractStatsFromContext
    rw [h]
    simp only [Option.map_some', Option.map_none', finalize, mkStats, clamp0]
    norm_num
  exact ⟨h2, by rw [h2]; simp⟩

/-- C2 (amended): on a fully observed triple the sum check is the
inclusive band [85,110] — sums 85 and 110 are accepted with the observed
values — but an out-of-band sum does not make the cycle report "no
result": the observed RESIDUAL is discarded and a record with
RESIDUAL = max(0, 100 - PRIMARY_A - PRIMARY_B) is emitted instead
(sum-84 and sum-111 instances below emit derived records). -/
theorem plausibility_band_inclusive_with_fallthrough :
    (∀ p b t now : ℚ, finalize (some p) (some b) (some t) now =
        if 85 ≤ p + b + t ∧ p + b + t ≤ 110 then some (mkStats p b t now)
        else some (mkStats p b (clamp0 (100 - p - b)) now)) ∧
      extractStatsFromContext ⟨[], [], ""⟩ [40] [40] [5] 0 = some (mkStats 40 40 5 0) ∧
      extractStatsFromContext ⟨[], [], ""⟩ [50] [50] [10] 0 = some (mkStats 50 50 10 0) ∧
      extractStatsFromContext ⟨[], [], ""⟩ [50] [56] [5] 0 = some (mkStats 50 56 0 0) := by
  refine ⟨fun p b t now => rfl, ?_, ?_, ?_⟩
  · have h : ctxResolve ⟨[], [], ""⟩ [40] [40] [5] = (some 40, some 40, some 5) := by
      decide
    unfold extractStatsFromContext
    rw [h]
    simp only [Option.map_some', Option.map_none', finalize, mkStats, clamp0]
    norm_num
  · have h : ctxResolve ⟨[], [], ""⟩ [50] [50] [10] = (some 50, some 50, some 10) := by
      decide
    unfold extractStatsFromContext
    rw [h]
    simp only [Option.map_some', Option.map_none', finalize, mkStats, clamp0]
    norm_num
  · have h : ctxResolve ⟨[], [], ""⟩ [50] [56] [5] = (some 50, some 56, some 5) := by
      decide
    unfold extractStatsFromContext
    rw [h]
    simp only [Option.map_some', Option.map_none', finalize, mkStats, clamp0]
    norm_num

/-- C3 counterexample: the general text/markup reconciliation path does
NOT fail the cycle when only PRIMARY_A is known — with a single seeded
player candidate 60 it emits an estimated record (banker = 40 * 0.6 = 24,
tie = 16), so the single-known-value estimation is used by the general
path, not only by the screenshot collector. -/
theorem estimation_used_by_general_path :
    extractStatsFromContext ⟨[], [], ""⟩ [60] [] [] 0 =
      some (mkStats 60 24 16 0) := by
  have h : ctxResolve ⟨[], [], ""⟩ [60] [] [] = (some 60, none, none) := by decide
  unfold extractStatsFromContext
  rw [h]
  simp only [Option.map_some', Option.map_none', finalize, mkStats, clamp0]
  norm_num

/-- C3 (amended): the single-known-value estimation
(PRIMARY_B = (100 - PRIMARY_A) * 0.6, RESIDUAL = 100 - PRIMARY_A -
PRIMARY_B clamped at 0, an observed RESIDUAL being kept) is implemented
in the general context path's final fallback; the screenshot/OCR
collector has no estimation fallback at all and yields no result when
only PRIMARY_A is found in the transcript. -/
theorem estimation_lives_in_context_path :
    parseOcrText "PLAYER 60%" 0 = none ∧
      ∀ p now : ℚ, finalize (some p) none none now =
        some (mkStats p ((100 - p) * (3 / 5))
          (clamp0 (100 - p - (100 - p) * (3 / 5))) now) := by
  refine ⟨?_, fun p now => rfl⟩
  have h : ocrResolve "PLAYER 60%" = (some 60, none, none) := by decide
  unfold parseOcrText
  rw [h]
  rfl

/-- C4: the per-label consensus vote returns an answer on every non-empty
candidate list, and any returned value is a candidate whose occurrence
count is maximal, with ties between equally frequent values resolved
towards the larger value. -/
theorem reconcile_majority_then_magnitude :
    ∀ c : List ℕ,
      (c ≠ [] → (selectConsensus c).isSome) ∧
        ∀ v, selectConsensus c = some v →
          v ∈ c ∧ ∀ w ∈ c, c.count w ≤ c.count v ∧ (c.count w = c.count v → w ≤ v) := by
  intro c
  constructor
  · intro hne
    match c, hne with
    | x :: l, _ =>
      show (List.foldl (selStep (x :: l)) none (x :: l)).isSome
      rw [List.foldl_cons]
      exact selSome (x :: l) l _ (by simp [selStep])
  · intro v h
    obtain ⟨hA, hB, _⟩ := selAux c c none v h
    refine ⟨?_, ?_⟩
    · rcases hA with h1 | h1
      · exact h1
      · cases h1
    · intro w hw
      have := hB w hw
      unfold keyLe at this
      omega

/-- C4 witness: on [55, 60, 60, 55] (counts tied at two each) the vote
returns 60, a member with maximal count, larger than the tied 55. -/
theorem reconcile_majority_then_magnitude_witness :
    (selectConsensus [55, 60, 60, 55]).isSome ∧ 60 ∈ [55, 60, 60, 55] ∧
      [55, 60, 60, 55].count 55 ≤ [55, 60, 60, 55].count 60 ∧ 55 ≤ 60 := by
  have h := reconcile_majority_then_magnitude [55, 60, 60, 55]
  have h1 := h.1 (by decide)
  have h2 := h.2 60 (by decide)
  exact ⟨h1, h2.1, (h2.2 55 (by decide)).1, (h2.2 55 (by decide)).2 (by decide)⟩

/-- C5: when PRIMARY_A and PRIMARY_B are resolved and RESIDUAL is not,
the cycle derives RESIDUAL = max(0, 100 - PRIMARY_A - PRIMARY_B) and
always emits: (70, 22) yields RESIDUAL 8, and (40, 65) clamps to 0, both
emitted. -/
theorem derived_residual_two_of_three :
    (∀ p b now : ℚ, finalize (some p) (some b) none now =
        some (mkStats p b (clamp0 (100 - p - b)) now)) ∧
      extractStatsFromContext ⟨[], [], ""⟩ [70] [22] [] 0 = some (mkStats 70 22 8 0) ∧
      extractStatsFromContext ⟨[], [], ""⟩ [40] [65] [] 0 = some (mkStats 40 65 0 0) := by
  refine ⟨fun p b now => rfl, ?_, ?_⟩
  · have h : ctxResolve ⟨[], [], ""⟩ [70] [22] [] = (some 70, some 22, none) := by decide
    unfold extractStatsFromContext
    rw [h]
    simp only [Option.map_some', Option.map_none', finalize, mkStats, clamp0]
    norm_num
  · have h : ctxResolve ⟨[], [], ""⟩ [40] [65] [] = (some 40, some 65, none) := by decide
    unfold extractStatsFromContext
    rw [h]
    simp only [Option.map_some', Option.map_none', finalize, mkStats, clamp0]
    norm_num

/-- C6 counterexample: a concrete emitted record (derived-tie input 60/30)
carries exactly the keys player_percent, banker_percent, tie_percent,
player_winning, timestamp — there is no "derived" field in any record the
code builds. -/
theorem record_has_no_derived_field :
    extractStatsFromContext ⟨[], [], ""⟩ [60] [30] [] 0 =
      some (mkStats 60 30 10 0) ∧
      (mkStats 60 30 10 0).map Prod.fst = ctxKeys ∧
      "derived" ∉ (mkStats 60 30 10 0).map Prod.fst := by
  refine ⟨?_, rfl, by decide⟩
  have h : ctxResolve ⟨[], [], ""⟩ [60] [30] [] = (some 60, some 30, none) := by decide
  unfold extractStatsFromContext
  rw [h]
  simp only [Option.map_some', Option.map_none', finalize, mkStats, clamp0]
  norm_num

/-- C6 (amended): every record the context path emits has exactly the
keys {player_percent, banker_percent, tie_percent, player_winning,
timestamp}, every record the OCR path emits additionally has
extraction_method, and in both the player_winning field equals the strict
comparison player_percent > 50; no derived (or estimated) flag is
surfaced. -/
theorem record_fields_and_winning :
    (∀ (pOpt bOpt tOpt : Option ℚ) (now : ℚ) (d : PyDict),
        finalize pOpt bOpt tOpt now = some d →
          d.map Prod.fst = ctxKeys ∧
            ∀ p : ℚ, List.lookup "player_percent" d = some (PyVal.num p) →
              List.lookup "player_winning" d = some (PyVal.bool (decide (p > 50)))) ∧
      ∀ (txt : String) (now : ℚ) (d : PyDict),
        parseOcrText txt now = some d →
          d.map Prod.fst = ocrKeys ∧
            ∀ p : ℚ, List.lookup "player_percent" d = some (PyVal.num p) →
              List.lookup "player_winning" d = some (PyVal.bool (decide (p > 50))) := by
  constructor
  · intro pOpt bOpt tOpt now d h
    obtain ⟨p, b, t, rfl⟩ := finalize_shape pOpt bOpt tOpt now d h
    refine ⟨mkStats_keys p b t now, ?_⟩
    intro q hq
    rw [mkStats_lookup_pp] at hq
    have hpq : p = q := by
      have := Option.some.inj hq
      injection this
    rw [mkStats_lookup_pw, hpq]
  · intro txt now d h
    obtain ⟨p, b, t, rfl⟩ := emitOcr_shape (ocrResolve txt) now d h
    refine ⟨mkOcrStats_keys p b t now, ?_⟩
    intro q hq
    rw [mkOcrStats_lookup_pp] at hq
    have hpq : p = q := by
      have := Option.some.inj hq
      injection this
    rw [mkOcrStats_lookup_pw, hpq]

/-- C6 witness: the amended theorem applied to the concrete accepted
triple (10, 20, 70): five keys, player_winning false since 10 is not
above 50. -/
theorem record_fields_and_winning_witness :
    (mkStats 10 20 70 0).map Prod.fst = ctxKeys ∧
      List.lookup "player_winning" (mkStats 10 20 70 (0 : ℚ)) =
        some (PyVal.bool false) := by
  have hfin : finalize (some (10 : ℚ)) (some 20) (some 70) 0 =
      some (mkStats 10 20 70 0) := by
    simp only [finalize]
    rw [if_pos (by norm_num)]
  have h := record_fields_and_winning.1 (some 10) (some 20) (some 70) 0
    (mkStats 10 20 70 0) hfin
  have h2 := h.2 10 (mkStats_lookup_pp 10 20 70 0)
  refine ⟨h.1, ?_⟩
  rw [h2]
  norm_num

/-- C7 counterexample: the page-source context-window collector
(scraper.py lines 517-542) does deduplicate — two occurrences of 55% near
a PLAYER keyword yield the candidate list [55], not [55, 55] — so not
every matching occurrence is appended when an identical value is already
present. -/
theorem window_collector_dedups :
    windowCollect "PLAYER AA 55% BB 55% CC" ([], [], []) = ([55], [], []) ∧
      ([55] : List ℕ) ≠ [55, 55] := by
  exact ⟨by decide, by decide⟩

/-- C7 (amended): the keyword-text collectors (JavaScript bulk text,
per-element, markup patterns) append every matching occurrence without
deduplication — the JavaScript collector's output is exactly the seeded
lists extended by the concatenation of per-text matches, multiplicities
preserved — but the page-source ±200-character window collector appends a
value only when it is not already in that label's list (a repeated
"BANKER ... 30% ... 30%" yields [30] once). -/
theorem text_collectors_append_window_dedups :
    (∀ (texts : List String) (pc bc tc : List ℕ),
        jsCollect texts (pc, bc, tc) =
          (pc ++ concatMapStr textPl texts, bc ++ concatMapStr textBk texts,
            tc ++ concatMapStr textTi texts)) ∧
      windowCollect "BANKER 30% X 30%" ([], [], []) = ([], [30], []) :=
  ⟨jsCollect_eq, by decide⟩

/-- C8 counterexample: on the transcript whose percent numbers are
45, 40, 15, 93, 0, 15, the OCR fallback selects the window (93, 0, 15)
(sum 108, middle equal to the minimum) although the window (45, 40, 15)
has sum exactly 100 — so the collector does not select the window whose
sum is closest to 100; the spec-worded selection (`bestTripletClaim`)
picks (45, 40, 15) instead. -/
theorem ocr_window_selection_cx :
    parseOcrText "45%\n40%\n15%\n93%\n0%\n15%" 0 = some (mkOcrStats 93 15 0 0) ∧
      bestTriplet [45, 40, 15, 93, 0, 15] = some (93, 0, 15) ∧
      bestTripletClaim [45, 40, 15, 93, 0, 15] = some (45, 40, 15) ∧
      some ((93, 0, 15) : ℕ × ℕ × ℕ) ≠ some ((45, 40, 15) : ℕ × ℕ × ℕ) := by
  refine ⟨?_, by decide, by decide, by decide⟩
  have h : ocrResolve "45%\n40%\n15%\n93%\n0%\n15%" = (some 93, some 15, some 0) := by
    decide
  unfold parseOcrText
  rw [h]
  simp only [emitOcr, mkOcrStats]
  norm_num

/-- C8 (amended): the OCR sliding-window fallback only considers windows
of three consecutive in-range percent numbers whose sum lies in [90,110],
and among those selects one whose |middle - minimum| score is minimal
(the earliest such window on ties); the sum's distance to 100 plays no
further role, and the selected numbers are assigned in the fixed order
PRIMARY_A, RESIDUAL, PRIMARY_B. -/
theorem ocr_window_band_then_minscore :
    ∀ (nums : List ℕ) (w : ℕ × ℕ × ℕ), bestTriplet nums = some w →
      w ∈ windows3 nums ∧ 90 ≤ triSum w ∧ triSum w ≤ 110 ∧
        ∀ u ∈ windows3 nums, 90 ≤ triSum u → triSum u ≤ 110 →
          triScore w ≤ triScore u := by
  intro nums w h
  obtain ⟨hA, hB, _⟩ := bAux (windows3 nums) none w h
  rcases hA with ⟨hm, h1, h2⟩ | habs
  · exact ⟨hm, h1, h2, hB⟩
  · cases habs

/-- C8 witness: the amended theorem applied to [45, 40, 15, 93, 0, 15],
whose selected window (93, 0, 15) is a member window in band with a score
no larger than that of the in-band window (45, 40, 15). -/
theorem ocr_window_band_then_minscore_witness :
    ((93, 0, 15) : ℕ × ℕ × ℕ) ∈ windows3 [45, 40, 15, 93, 0, 15] ∧
      90 ≤ triSum (93, 0, 15) ∧ triSum ((93 : ℕ), (0 : ℕ), (15 : ℕ)) ≤ 110 ∧
      triScore ((93 : ℕ), (0 : ℕ), (15 : ℕ)) ≤ triScore (45, 40, 15) := by
  have h := ocr_window_band_then_minscore [45, 40, 15, 93, 0, 15] (93, 0, 15) (by decide)
  exact ⟨h.1, h.2.1, h.2.2.1, h.2.2.2 (45, 40, 15) (by decide) (by decide) (by decide)⟩

/-- C9: with a succeeding restore, the screenshot collector's final
window size equals the original size on every exit path of the
capture-and-recognise region — capture raising, OCR raising, OCR
returning None, parsing failing, or parsing succeeding — and also on the
no-OCR early return that never resizes. -/
theorem screenshot_viewport_restored :
    ∀ (a : Bool) (orig full : ℕ × ℕ) (cap : Except Unit Unit)
      (ocr : Except Unit (Option String)) (now : ℚ),
      (extractStatsFromScreenshot a orig full cap ocr true now).2 = orig := by
  intro a orig full cap ocr now
  cases a with
  | false => rfl
  | true =>
    cases cap with
    | error e => rfl
    | ok u =>
      cases ocr with
      | error e => rfl
      | ok o =>
        cases o with
        | none => rfl
        | some t => rfl

/-- C10: the percent parser implements `(\d+)%` — a maximal digit run
immediately before a percent sign — so "49.5%" contributes only the
digits after the decimal point (the single candidate 5), and every
candidate a keyword-text collector produces is a whole number at most
100. -/
theorem percent_parser_whole_in_range :
    findPercents "49.5%".data = [5] ∧
      (∀ t : String, ∀ v ∈ textPl t, v ≤ 100) ∧
      (∀ t : String, ∀ v ∈ textBk t, v ≤ 100) ∧
      (∀ t : String, ∀ v ∈ textTi t, v ≤ 100) := by
  refine ⟨by decide, ?_, ?_, ?_⟩
  · intro t v hv
    unfold textPl at hv
    split at hv
    · exact of_decide_eq_true (List.mem_filter.mp hv).2
    · cases hv
  · intro t v hv
    unfold textBk at hv
    split at hv
    · exact of_decide_eq_true (List.mem_filter.mp hv).2
    · cases hv
  · intro t v hv
    unfold textTi at hv
    split at hv
    · exact of_decide_eq_true (List.mem_filter.mp hv).2
    · cases hv

/-- C10 witness: the candidate 5 extracted from "PLAYER 49.5%" is within
range by the theorem. -/
theorem percent_parser_whole_in_range_witness : (5 : ℕ) ≤ 100 :=
  percent_parser_whole_in_range.2.1 "PLAYER 49.5%" 5 (by decide)
